import Mathlib

/-!
Verification of the expanding-window augmentation subsystem
(`pytimetk/core/expanding.py`): `augment_expanding` (pandas and polars
backends) and `augment_expanding_apply`.

The tabular engines (pandas / polars) are external collaborators consumed
as black boxes; their windowing primitives are embedded by their documented
contracts, and the numerical algorithms of the statistical primitives are a
declared non-goal, so the engines here are parameterised by a primitive map
`String → List Val → Option Val` (the value `none` is the missing-value marker,
NaN in pandas, null in polars).  Cell values are embedded as integers (see `Val`).
Python exception messages are reproduced without quote characters.
-/

set_option maxHeartbeats 1000000

namespace Expanding

/-- A cell value.  The orchestration layer under verification never
computes with cell values itself — all arithmetic lives in the black-box
statistic primitives — so values are embedded as integers, which the kernel
evaluates; the primitive maps are parameters of the engines. -/
abbrev Val := Int

/-- One row of the caller table: `idx` is the pandas row index (the default
RangeIndex assigns positions `0..n-1`), `grp` the value of the grouping
column, `date` the value of the ordering (date) column, and `vals` the named
value columns. -/
structure Row where
  idx : Nat
  grp : Int
  date : Int
  vals : List (String × Val)
deriving DecidableEq

/-- Cells of the newly computed columns attached to one row. -/
abbrev Cells := List (String × Option Val)

/-- A row of an output table: the original row plus its new cells. -/
abbrev ORow := Row × Cells

/-- Value of a (validated) value column in a row. -/
def Row.valueAt (r : Row) (c : String) : Val := (r.vals.lookup c).getD 0

/-- A Python exception: its type and its message. -/
structure PyErr where
  etype : String
  msg : String
deriving DecidableEq

/-- Result of an invocation: the augmented table or a synchronous error
(the whole invocation fails, no partial result). -/
abbrev PdResult := Except PyErr (List ORow)

/-- Whether an invocation succeeded. -/
def exOk : PdResult → Bool
  | .ok _ => true
  | .error _ => false

/-- Test whether a pattern occurs as a substring (`pat in s` in Python). -/
def strContains (s pat : String) : Bool := decide (pat.data <:+: s.data)

/-- Sum statistic over a window. -/
def statSum (xs : List Val) : Option Val := some xs.sum

/-- Count statistic over a window. -/
def statCount (xs : List Val) : Option Val := some (xs.length : Val)

/-- Mean statistic over a window (empty window gives the missing marker);
a sample primitive, exact on the divisible windows used in examples. -/
def statMean (xs : List Val) : Option Val :=
  if xs.length = 0 then none else some (xs.sum / (xs.length : Val))

/-- Minimum statistic over a window. -/
def statMin : List Val → Option Val
  | [] => none
  | x :: xs => some (xs.foldl min x)

/-- Maximum statistic over a window. -/
def statMax : List Val → Option Val
  | [] => none
  | x :: xs => some (xs.foldl max x)

/-- A sample primitive map used to instantiate the engine parameters in
concrete evaluations (the numerical algorithms of the primitives are outside
the subsystem under verification). -/
def examplePrims : String → List Val → Option Val
  | "mean" => statMean
  | "sum" => statSum
  | "count" => statCount
  | "min" => statMin
  | "max" => statMax
  | _ => fun _ => none

/-- A primitive map in which every primitive returns a value on every
window; with it, a `none` in an output column can only come from the
orchestration layer, never from the statistic itself. -/
def constPrims : String → List Val → Option Val := fun _ xs => some xs.sum

/-- A sample quantile primitive (the pandas backend passes the `quantile`
keyword to it). -/
def exampleQPrim : Val → List Val → Option Val := fun _ xs => statMean xs

/-- pandas `Series.expanding(min_periods=mp)` followed by an aggregation
`f`: the value at position `i` is `f` over rows `0..i` when `i+1 ≥ mp`, and
the missing marker otherwise.  Also embeds the helper `expanding_apply` of
`augment_expanding_apply` (lines 368-377) when `f` wraps a frame callable. -/
def expandingApply (mp : Nat) (f : List Val → Option Val) (xs : List Val) : List (Option Val) :=
  (List.range xs.length).map (fun i => if mp ≤ i + 1 then f (xs.take (i + 1)) else none)

/-- The same expanding loop over full row windows, as the helper
`expanding_apply` of `augment_expanding_apply` performs on `df.iloc[:end]`. -/
def expandingFrameApply (mp : Nat) (f : List Row → Option Val) (g : List Row) : List (Option Val) :=
  (List.range g.length).map (fun i => if mp ≤ i + 1 then f (g.take (i + 1)) else none)

/-- polars `Expr.rolling_<stat>(window_size=ws, min_periods=mp)`: the value
at position `i` is the statistic over the trailing window of up to `ws`
elements ending at `i`, and null when that window holds fewer than `mp`
elements. -/
def rollingStat (ws mp : Nat) (f : List Val → Option Val) (xs : List Val) : List (Option Val) :=
  (List.range xs.length).map (fun i =>
    if mp ≤ ((xs.take (i + 1)).drop (i + 1 - ws)).length
    then f ((xs.take (i + 1)).drop (i + 1 - ws)) else none)

/-- Python `dict.update`: entries of `u` override entries of `d`. -/
def dictUpdate (d u : List (String × Val)) : List (String × Val) :=
  d.map (fun kv => match u.lookup kv.1 with | some v => (kv.1, v) | none => kv)
    ++ u.filter (fun kv => (d.lookup kv.1).isNone)

mutual
/-- A Python value appearing in a `window_func` argument: strings, numbers,
dicts, tuples, lists and callables.  A callable carries its behaviour when
invoked with zero arguments (the probe), with one Series argument, and with
one DataFrame argument. -/
inductive PyObj where
  | pstr (s : String)
  | pnum (q : Val)
  | pdict (kvs : List (String × Val))
  | ptuple (xs : List PyObj)
  | plist (xs : List PyObj)
  | pcall (probe : Probe) (fser : List Val → Option Val) (fframe : List Row → Option Val)

/-- Outcome of invoking a callable with zero arguments. -/
inductive Probe where
  | returns (v : PyObj)
  | raises (etype : String) (msg : String)
end

/-- Python `type(x)` rendered as in CPython error messages (quote
characters omitted). -/
def pyTypeName : PyObj → String
  | .pstr _ => "<class str>"
  | .pnum _ => "<class int>"
  | .pdict _ => "<class dict>"
  | .ptuple _ => "<class tuple>"
  | .plist _ => "<class list>"
  | .pcall _ _ _ => "<class function>"

/-- Python `str(x)` as used when the code formats a descriptor name into a
column name. -/
def pyStr : PyObj → String
  | .pstr s => s
  | .pnum q => toString q
  | _ => "<object>"

/-- Python iteration (`for func in window_func`): lists and tuples yield
their elements, a string yields its characters, anything else raises
`TypeError`. -/
def pyIter : PyObj → Except PyErr (List PyObj)
  | .plist xs => .ok xs
  | .ptuple xs => .ok xs
  | .pstr s => .ok (s.data.map (fun c => .pstr ⟨[c]⟩))
  | x => .error ⟨"TypeError", pyTypeName x ++ " object is not iterable"⟩

/-- Sequence a list of fallible computations, failing on the first error
(the loop over window functions aborts the whole invocation at the first
bad descriptor). -/
def exceptMapM {α β : Type} (f : α → Except PyErr β) : List α → Except PyErr (List β)
  | [] => .ok []
  | a :: as =>
    match f a with
    | .error e => .error e
    | .ok b =>
      match exceptMapM f as with
      | .error e => .error e
      | .ok bs => .ok (b :: bs)

/-- The (column, descriptor) pairs in loop order: value columns outer,
window functions inner. -/
def colProd (vcols : List String) (ds : List PyObj) : List (String × PyObj) :=
  (vcols.map (fun c => ds.map (fun d => (c, d)))).flatten

/-- Lexicographic order on (grouping column, date column): the key of
`sort_values(by=[*group_names, date_column])`. -/
def rowLeGD (a b : Row) : Prop := a.grp < b.grp ∨ (a.grp = b.grp ∧ a.date ≤ b.date)

/-- Order on the date column alone: the key of `sort_values(by=[date_column])`. -/
def rowLeDate (a b : Row) : Prop := a.date ≤ b.date

/-- Order on the original row index: the key of the final `sort_index()`
(pandas) and `sort(index)` (polars). -/
def pairLeIdx (a b : ORow) : Prop := a.1.idx ≤ b.1.idx

/-- Strict order on the original row index, used to state uniqueness of the
restored order. -/
def rowLtIdx (a b : Row) : Prop := a.idx < b.idx

instance : DecidableRel rowLeGD := fun a b => by
  unfold rowLeGD; infer_instance

instance : DecidableRel rowLeDate := fun a b => by
  unfold rowLeDate; infer_instance

instance : DecidableRel pairLeIdx := fun a b => by
  unfold pairLeIdx; infer_instance

instance : IsTotal Row rowLeGD where
  total a b := by
    unfold rowLeGD
    rcases lt_trichotomy a.grp b.grp with h | h | h
    · exact Or.inl (Or.inl h)
    · rcases le_total a.date b.date with hd | hd
      · exact Or.inl (Or.inr ⟨h, hd⟩)
      · exact Or.inr (Or.inr ⟨h.symm, hd⟩)
    · exact Or.inr (Or.inl h)

instance : IsTrans Row rowLeGD where
  trans a b c hab hbc := by
    unfold rowLeGD at *
    rcases hab with h1 | ⟨h1, d1⟩
    · rcases hbc with h2 | ⟨h2, _⟩
      · exact Or.inl (h1.trans h2)
      · exact Or.inl (h2 ▸ h1)
    · rcases hbc with h2 | ⟨h2, d2⟩
      · exact Or.inl (h1 ▸ h2)
      · exact Or.inr ⟨h1.trans h2, d1.trans d2⟩

instance : IsTotal Row rowLeDate where
  total a b := le_total a.date b.date

instance : IsTrans Row rowLeDate where
  trans _ _ _ hab hbc := le_trans hab hbc

instance : IsTotal ORow pairLeIdx where
  total a b := Nat.le_total a.1.idx b.1.idx

instance : IsTrans ORow pairLeIdx where
  trans _ _ _ hab hbc := Nat.le_trans hab hbc

instance : IsAntisymm Row rowLtIdx where
  antisymm _ _ h1 h2 := absurd h2 (Nat.lt_asymm h1)

/-- The internal sort-for-computation of the grouped paths:
`sort_values(by=[*group_names, date_column])` (pandas) and
`sort(*group_names, date_column)` (polars), embedded as a stable sort. -/
def sortGD (l : List Row) : List Row := List.insertionSort rowLeGD l

/-- The internal sort-for-computation of the ungrouped paths:
`sort_values(by=[date_column])` / `sort(date_column)`. -/
def sortDate (l : List Row) : List Row := List.insertionSort rowLeDate l

/-- The final order-restoring sort: `sort_index()` (pandas, line 243/393)
and `sort(index)` (polars, lines 521/528). -/
def sortByIdx (l : List ORow) : List ORow := List.insertionSort pairLeIdx l

/-- Split a list (already sorted by the grouping column) into its maximal
runs of equal group key: the groups yielded by `groupby(group_names)` on the
sorted frame, in sorted key order, and by the polars
`sort(...).group_by(...)` with per-group row order preserved. -/
def splitRuns : List Row → List (List Row)
  | [] => []
  | a :: rest =>
    match splitRuns rest with
    | [] => [[a]]
    | [] :: gs => [a] :: gs
    | (b :: g) :: gs =>
      if a.grp = b.grp then (a :: b :: g) :: gs else [a] :: (b :: g) :: gs

/-- Attach computed columns to rows positionally: row `j` of the block
receives cell `j` of every computed column.  This is how a computed Series
is assigned into a sub-frame (pandas, index-aligned on the same sub-frame)
and how `concat(..., how=horizontal)` pairs rows (polars, line 520). -/
def attachCells (g : List Row) (cols : List (String × List (Option Val))) : List ORow :=
  g.enum.map (fun p => (p.2, cols.map (fun c => (c.1, c.2.getD p.1 none))))

/-- The rows of an output table without their new cells. -/
def stripNew (l : List ORow) : List Row := l.map Prod.fst

/-- The caller table carries the default RangeIndex: row `i` has index `i`. -/
def indexed (rows : List Row) : Prop := rows.map Row.idx = List.range rows.length

/-- A computed expanding column as a function of a column of values. -/
abbrev SeriesFn := List Val → List (Option Val)

/-- The eleven named statistics of the specification. -/
def elevenStats : List String :=
  ["mean", "sum", "std", "var", "min", "max", "count", "median", "skew", "kurt", "quantile"]

/-- Attribute surface of a pandas `Series.expanding(...)` object (external
engine A, consumed as a black box): the methods `getattr` can find there. -/
def pandasExpandingAttrs : List String :=
  ["agg", "aggregate", "apply", "corr", "count", "cov", "kurt", "max", "mean",
   "median", "min", "quantile", "rank", "sem", "skew", "std", "sum", "var"]

/-- Attribute surface of a polars expression `pl.col(...)` (external engine
B, consumed as a black box): plain aggregations (note `kurtosis`, not
`kurt`) and the `rolling_*` window primitives (there is no `rolling_count`
and no `rolling_kurt`). -/
def polarsExprAttrs : List String :=
  ["abs", "count", "first", "kurtosis", "last", "max", "mean", "median", "min",
   "n_unique", "quantile", "skew", "std", "sum", "var",
   "rolling_apply", "rolling_max", "rolling_mean", "rolling_median", "rolling_min",
   "rolling_quantile", "rolling_skew", "rolling_std", "rolling_sum", "rolling_var"]

/-- One `window_func` element of `_augment_expanding_pandas` (lines
219-238) resolved for one value column: a tuple is unpacked into a name and
a callable applied per window via `expanding(...).apply`; a string is
dispatched on the expanding object, `quantile` specially (line 229),
otherwise via `getattr` with a `ValueError` naming the string when absent;
any other type raises `TypeError`. -/
def pandasResolveDesc (prims : String → List Val → Option Val)
    (qprim : Val → List Val → Option Val) (q : Val) (mp : Nat) (col : String)
    (d : PyObj) : Except PyErr (String × SeriesFn) :=
  match d with
  | .ptuple [a, b] =>
    match b with
    | .pcall _ fser _ =>
      .ok (col ++ "_expanding_" ++ pyStr a, expandingApply mp fser)
    | _ => .error ⟨"TypeError", "the first argument must be callable"⟩
  | .ptuple xs =>
    if xs.length < 2 then
      .error ⟨"ValueError",
        "not enough values to unpack (expected 2, got " ++ toString xs.length ++ ")"⟩
    else .error ⟨"ValueError", "too many values to unpack (expected 2)"⟩
  | .pstr s =>
    if s = "quantile" then
      .ok (col ++ "_expanding_" ++ s, expandingApply mp (qprim q))
    else if s ∈ pandasExpandingAttrs then
      .ok (col ++ "_expanding_" ++ s, expandingApply mp (prims s))
    else .error ⟨"ValueError", "Invalid function name: " ++ s⟩
  | d => .error ⟨"TypeError", "Invalid function type: " ++ pyTypeName d⟩

/-- Resolve every (value column, window function) combination in loop
order, aborting the invocation at the first bad descriptor.  Each resolved
entry is (new column name, value column, column function). -/
def pandasResolveAll (prims : String → List Val → Option Val)
    (qprim : Val → List Val → Option Val) (q : Val) (mp : Nat)
    (vcols : List String) (ds : List PyObj) :
    Except PyErr (List (String × String × SeriesFn)) :=
  exceptMapM (fun cd =>
      (pandasResolveDesc prims qprim q mp cd.1 cd.2).map (fun r => (r.1, cd.1, r.2)))
    (colProd vcols ds)

/-- Compute all new columns for one group sub-frame and attach them to its
rows (the inner loops of `_augment_expanding_pandas`, lines 217-240). -/
def pandasComputeGroup (rs : List (String × String × SeriesFn)) (g : List Row) :
    List ORow :=
  attachCells g (rs.map (fun e => (e.1, e.2.2 (g.map (fun r => r.valueAt e.2.1)))))

/-- `_augment_expanding_pandas` (lines 194-245): sort the copy by
[group columns, date] and split into groups (or sort by date alone when
ungrouped), compute expanding columns per group, concatenate and restore
the original index order with `sort_index()`. -/
def pandasPipeline (prims : String → List Val → Option Val)
    (qprim : Val → List Val → Option Val) (grouped : Bool) (rows : List Row)
    (vcols : List String) (wf : PyObj) (mp : Nat) (q : Val) : PdResult :=
  match pyIter wf with
  | .error e => .error e
  | .ok ds =>
    match pandasResolveAll prims qprim q mp vcols ds with
    | .error e => .error e
    | .ok rs =>
      let groups := if grouped then splitRuns (sortGD rows) else [sortDate rows]
      .ok (sortByIdx ((groups.map (pandasComputeGroup rs)).flatten))

/-- A constructed polars expanding expression (the value accumulated in
`expanding_exprs`, lines 432-507). -/
inductive PolExpr where
  | rollingNamed (stat : String) (ws mp : Nat)
  | rollingSkew (ws : Nat)
  | rollingConfig (target : String) (kwargs : List (String × Val))
  | rollingApplyE (ws mp : Nat) (f : List Val → Option Val)

/-- Lines 456-462: the engine writes `window_size` and `min_periods` into
the user parameter mapping (overriding the user on those two keys), then
the user mapping overrides the default mapping. -/
def mergeKwargs (default_kwargs user_kwargs : List (String × Val)) (n mp : Nat) :
    List (String × Val) :=
  dictUpdate default_kwargs
    (dictUpdate user_kwargs [("window_size", (n : Val)), ("min_periods", (mp : Val))])

/-- `getattr(pl.col(col), "rolling_" + target)(**kwargs)` for a
configurable reducer (lines 464-470): an absent primitive raises the
wrapped `AttributeError`; `rolling_quantile` requires its `quantile`
argument, and a failure inside the inner `try` is re-raised as a generic
`Exception` naming the reducer. -/
def polarsRollingConfig (user_func_name target : String)
    (kwargs : List (String × Val)) : Except PyErr PolExpr :=
  if ("rolling_" ++ target) ∈ polarsExprAttrs then
    if target = "quantile" ∧ (kwargs.lookup "quantile").isNone then
      .error ⟨"Exception",
        "An error occurred during the operation of the `" ++ user_func_name ++
          "` function in Polars. Error: rolling_quantile missing 1 required positional argument: quantile"⟩
    else .ok (.rollingConfig target kwargs)
  else
    .error ⟨"AttributeError",
      "The function `" ++ user_func_name ++
        "` attempted to access an attribute or method that does not exist in Polars. Error: Expr object has no attribute rolling_" ++ target⟩

/-- `getattr(pl.col(col), "rolling_" + s)(window_size=n, min_periods=mp)`
for a named statistic on the polars path (line 499): the attribute lookup
can raise `AttributeError`, and `rolling_quantile` raises `TypeError` for
its missing required `quantile` argument. -/
def polarsRollingNamed (s : String) (ws mp : Nat) : Except PyErr PolExpr :=
  if ("rolling_" ++ s) ∈ polarsExprAttrs then
    if s = "quantile" then
      .error ⟨"TypeError",
        "rolling_quantile missing 1 required positional argument: quantile"⟩
    else .ok (.rollingNamed s ws mp)
  else
    .error ⟨"AttributeError", "Expr object has no attribute rolling_" ++ s⟩

/-- The `isinstance(result, tuple) and result[0] == "configurable"` check
(line 451); an empty tuple raises `IndexError` at `result[0]`. -/
def configurableCheck : PyObj → Except PyErr Bool
  | .ptuple [] => .error ⟨"IndexError", "tuple index out of range"⟩
  | .ptuple (x :: _) =>
    .ok (match x with | .pstr s => s = "configurable" | _ => false)
  | _ => .ok false

/-- One `window_func` element of `_augment_expanding_polars` (lines
438-507) processed for one value column.  The first component counts how
many times the zero-argument probe `func()` was invoked: the source calls
it at line 450 and, for a configurable reducer, again at line 454.  `n` is
`pandas_df.shape[0]`, the total row count of the table. -/
def polarsProcessDesc (n mp : Nat) (col : String) (d : PyObj) :
    Nat × Except PyErr (String × PolExpr) :=
  match d with
  | .ptuple xs =>
    match xs with
    | [a, b] =>
      match a with
      | .pstr user_name =>
        let newName := col ++ "_expanding_" ++ user_name
        match b with
        | .pcall probe fser _ =>
          match probe with
          | .returns v =>
            match configurableCheck v with
            | .error e => (1, .error e)
            | .ok isCfg =>
              if isCfg then
                match v with
                | .ptuple [_, .pstr target, .pdict dk, .pdict uk] =>
                  (2, (polarsRollingConfig user_name target
                        (mergeKwargs dk uk n mp)).map (fun e => (newName, e)))
                | .ptuple vs =>
                  if vs.length < 4 then
                    (2, .error ⟨"ValueError",
                      "not enough values to unpack (expected 4, got " ++
                        toString vs.length ++ ")"⟩)
                  else if 4 < vs.length then
                    (2, .error ⟨"ValueError", "too many values to unpack (expected 4)"⟩)
                  else (2, .error ⟨"AttributeError", "object has no attribute update"⟩)
                | _ => (2, .error ⟨"TypeError", "cannot unpack non-iterable object"⟩)
              else (1, .error ⟨"ValueError", "Expected a configurable function format."⟩)
          | .raises et m =>
            if et = "TypeError" ∧ strContains m "missing 1 required positional argument" then
              (1, .ok (newName, .rollingApplyE n mp fser))
            else (1, .error ⟨et, m⟩)
        | other => (0, .error ⟨"TypeError", pyTypeName other ++ " object is not callable"⟩)
      | other =>
        (0, .error ⟨"TypeError",
          "Expected the first element of the tuple passed to `window_func` to be of type str, but received " ++
            pyTypeName other ++ "."⟩)
    | xs =>
      (0, .error ⟨"ValueError",
        "Expected the tuple passed to the `window_func` to be of length 2, but received tuple of length " ++
          toString xs.length ++ "."⟩)
  | .pstr s =>
    if s ∈ polarsExprAttrs then
      if s = "skew" then (0, .ok (col ++ "_expanding_" ++ s, .rollingSkew n))
      else (0, (polarsRollingNamed s n mp).map (fun e => (col ++ "_expanding_" ++ s, e)))
    else (0, .error ⟨"ValueError", s ++ " is not a recognized function for Polars."⟩)
  | d => (0, .error ⟨"TypeError", "Invalid function type: " ++ pyTypeName d⟩)

/-- Build every polars expanding expression in loop order, with its new
column name and its value column; `n` is the total row count. -/
def polarsBuildExprs (n mp : Nat) (vcols : List String) (ds : List PyObj) :
    Except PyErr (List (String × String × PolExpr)) :=
  exceptMapM (fun cd =>
      (polarsProcessDesc n mp cd.1 cd.2).2.map (fun r => (r.1, cd.1, r.2)))
    (colProd vcols ds)

/-- Evaluate a constructed polars expression on one column of values.  The
polars black-box contract: `rolling_<stat>` with `min_periods` gives null
below the observation threshold; `rolling_skew` has no `min_periods`
parameter and is null until the window holds `window_size` elements;
`rolling_apply` applies the callable per window. -/
def evalPolExpr (prims : String → List Val → Option Val) :
    PolExpr → List Val → List (Option Val)
  | .rollingNamed s ws mp => rollingStat ws mp (prims s)
  | .rollingSkew ws => rollingStat ws ws (prims "skew")
  | .rollingConfig t k =>
    let ws := ((k.lookup "window_size").getD 0).toNat
    let mp := ((k.lookup "min_periods").getD ((k.lookup "window_size").getD 0)).toNat
    rollingStat ws mp (prims t)
  | .rollingApplyE ws mp f => rollingStat ws mp f

/-- `_augment_expanding_polars` (lines 401-532): build all expressions with
`window_size = pandas_df.shape[0]`; grouped, the frame is sorted by
[groups, date], aggregated per group, exploded, and the resulting columns
are horizontally concatenated against the original-order frame before the
final `sort(index)`; ungrouped, the frame is sorted by date, the columns
are attached in place, and `sort(index)` restores the original order. -/
def polarsPipeline (prims : String → List Val → Option Val) (grouped : Bool)
    (rows : List Row) (vcols : List String) (wf : PyObj) (mp : Nat) : PdResult :=
  match pyIter wf with
  | .error e => .error e
  | .ok ds =>
    match polarsBuildExprs rows.length mp vcols ds with
    | .error e => .error e
    | .ok es =>
      if grouped then
        let runs := splitRuns (sortGD rows)
        let cols := es.map (fun e =>
          (e.1, (runs.map (fun g =>
            evalPolExpr prims e.2.2 (g.map (fun r => r.valueAt e.2.1)))).flatten))
        .ok (sortByIdx (attachCells rows cols))
      else
        let sorted := sortDate rows
        let cols := es.map (fun e =>
          (e.1, evalPolExpr prims e.2.2 (sorted.map (fun r => r.valueAt e.2.1))))
        .ok (sortByIdx (attachCells sorted cols))

/-- One `window_func` element of `augment_expanding_apply` (lines 382-388)
resolved: only tuples are accepted, unpacked into a name and a callable
applied to full row windows; anything else raises `TypeError`. -/
def applyResolveDesc (mp : Nat) (d : PyObj) :
    Except PyErr (String × (List Row → List (Option Val))) :=
  match d with
  | .ptuple [a, b] =>
    match b with
    | .pcall _ _ fframe => .ok ("expanding_" ++ pyStr a, expandingFrameApply mp fframe)
    | _ => .error ⟨"TypeError", "the first argument must be callable"⟩
  | .ptuple xs =>
    if xs.length < 2 then
      .error ⟨"ValueError",
        "not enough values to unpack (expected 2, got " ++ toString xs.length ++ ")"⟩
    else .error ⟨"ValueError", "too many values to unpack (expected 2)"⟩
  | d =>
    .error ⟨"TypeError",
      "Expected tuple, but got invalid function type: " ++ pyTypeName d⟩

/-- `augment_expanding_apply` (lines 249-395): no normalization of a single
descriptor is performed — the argument is iterated directly; groups are
formed as in the pandas backend; each tuple descriptor yields one column
`expanding_{name}` computed by the `expanding_apply` helper; the concatenated
result is restored to index order. -/
def augment_expanding_apply (grouped : Bool) (rows : List Row) (wf : PyObj)
    (min_periods : Option Nat) : PdResult :=
  let mp := min_periods.getD 1
  match pyIter wf with
  | .error e => .error e
  | .ok ds =>
    match exceptMapM (applyResolveDesc mp) ds with
    | .error e => .error e
    | .ok rs =>
      let groups := if grouped then splitRuns (sortGD rows) else [sortDate rows]
      .ok (sortByIdx ((groups.map (fun g =>
        attachCells g (rs.map (fun r => (r.1, r.2 g))))).flatten))

/-- Lines 174-176: a single string or tuple `window_func` is wrapped into a
one-element list before processing. -/
def normalizeWindowFunc : PyObj → PyObj
  | .pstr s => .plist [.pstr s]
  | .ptuple xs => .plist [.ptuple xs]
  | w => w

/-- `augment_expanding` (lines 11-187): normalize `window_func`, default
`min_periods` to 1, and dispatch on `engine`; any other engine string
raises `ValueError` (source message: Invalid engine. Use pandas or polars.). -/
def augment_expanding (prims_pd prims_pl : String → List Val → Option Val)
    (qprim : Val → List Val → Option Val) (grouped : Bool) (rows : List Row)
    (vcols : List String) (wf : PyObj) (min_periods : Option Nat)
    (engine : String) (q : Val) : PdResult :=
  let wfl := normalizeWindowFunc wf
  let mp := min_periods.getD 1
  if engine = "pandas" then pandasPipeline prims_pd qprim grouped rows vcols wfl mp q
  else if engine = "polars" then polarsPipeline prims_pl grouped rows vcols wfl mp
  else .error ⟨"ValueError", "Invalid engine. Use pandas or polars."⟩

/-- A materialized frame: rows together with any columns added in place. -/
abbrev DFrame := List ORow

/-- The caller-visible store of frames; a frame is addressed by its index. -/
abbrev Heap := List DFrame

/-- Allocate a fresh frame (`copy()`, `sort_values`, sub-frames of a
groupby, conversions — each returns a new object). -/
def heapAlloc (h : Heap) (d : DFrame) : Heap × Nat := (h ++ [d], h.length)

/-- Overwrite a frame in place (the in-place column assignment
`group_df[new_column_name] = ...`). -/
def heapSet (h : Heap) (i : Nat) (d : DFrame) : Heap := h.set i d

/-- Allocate one fresh frame per group and then write each computed group
frame in place: the code first materializes the sub-frames of the sorted
copy and then assigns new columns into them. -/
def allocEmpties : Heap → Nat → Heap × List Nat
  | h, 0 => (h, [])
  | h, k + 1 =>
    let p := heapAlloc h []
    let r := allocEmpties p.1 k
    (r.1, p.2 :: r.2)

/-- Write the computed content of every group frame at its allocated id. -/
def writeFrames (h : Heap) (ws : List (Nat × DFrame)) : Heap :=
  ws.foldl (fun hh p => heapSet hh p.1 p.2) h

/-- Allocate-then-write for a list of computed group frames, returning the
new heap and the ids holding the groups. -/
def allocWriteGroups (h : Heap) (gs : List DFrame) : Heap × List Nat :=
  let p := allocEmpties h gs.length
  (writeFrames p.1 (p.2.zip gs), p.2)

/-- Heap-level run of `augment_expanding`: line 205 (pandas) / line 414
(polars) allocates a fresh copy of the caller frame; the sorted frame and
every group sub-frame are fresh allocations; every in-place column write
targets a group frame; the result is assembled from the group frames (the
pure pipelines above compute their content). -/
def augment_expanding_heap (prims_pd prims_pl : String → List Val → Option Val)
    (qprim : Val → List Val → Option Val) (h : Heap) (dataId : Nat) (grouped : Bool)
    (vcols : List String) (wf : PyObj) (min_periods : Option Nat)
    (engine : String) (q : Val) : Heap × PdResult :=
  let data : DFrame := h.getD dataId []
  let rows : List Row := data.map Prod.fst
  let p1 := heapAlloc h data
  let res := augment_expanding prims_pd prims_pl qprim grouped rows vcols wf
    min_periods engine q
  match res with
  | .error e => (p1.1, .error e)
  | .ok out =>
    let groups := if grouped then splitRuns (sortGD rows) else [sortDate rows]
    let p2 := allocWriteGroups p1.1 (groups.map (fun g => g.map (fun r => (r, []))))
    let p3 := allocWriteGroups p2.1 [out]
    (p3.1, .ok out)

/-- Heap-level run of `augment_expanding_apply`: line 354 allocates the
copy; group frames are fresh; writes target them; the result is assembled
from them. -/
def augment_expanding_apply_heap (h : Heap) (dataId : Nat) (grouped : Bool)
    (wf : PyObj) (min_periods : Option Nat) : Heap × PdResult :=
  let data : DFrame := h.getD dataId []
  let rows : List Row := data.map Prod.fst
  let p1 := heapAlloc h data
  let res := augment_expanding_apply grouped rows wf min_periods
  match res with
  | .error e => (p1.1, .error e)
  | .ok out =>
    let groups := if grouped then splitRuns (sortGD rows) else [sortDate rows]
    let p2 := allocWriteGroups p1.1 (groups.map (fun g => g.map (fun r => (r, []))))
    let p3 := allocWriteGroups p2.1 [out]
    (p3.1, .ok out)

theorem flatten_splitRuns (l : List Row) : (splitRuns l).flatten = l := by
  induction l with
  | nil => rfl
  | cons a rest ih =>
    rw [splitRuns]
    cases h : splitRuns rest with
    | nil =>
      rw [h] at ih
      simp at ih
      simp [ih]
    | cons g gs =>
      cases g with
      | nil =>
        rw [h] at ih
        simp at ih
        simp [ih]
      | cons b g' =>
        rw [h] at ih
        by_cases hab : a.grp = b.grp
        · simp [hab, ← ih]
        · simp [hab, ← ih]

theorem stripNew_attachCells (g : List Row) (cols : List (String × List (Option Val))) :
    (attachCells g cols).map Prod.fst = g := by
  unfold attachCells
  rw [List.map_map]
  have hc : (Prod.fst ∘ fun p : Nat × Row =>
      ((p.2 : Row), cols.map (fun c => (c.1, c.2.getD p.1 none)))) = Prod.snd := rfl
  rw [hc, List.enum_eq_zip_range, List.map_snd_zip]
  simp

theorem attachCells_names (g : List Row) (cols : List (String × List (Option Val))) :
    ∀ p ∈ attachCells g cols, p.2.map Prod.fst = cols.map Prod.fst := by
  intro p hp
  unfold attachCells at hp
  rw [List.mem_map] at hp
  obtain ⟨a, _, rfl⟩ := hp
  rw [List.map_map]
  rfl

theorem stripNew_sortByIdx_of_perm (rows : List Row) (P : List ORow)
    (hidx : indexed rows) (hperm : (P.map Prod.fst).Perm rows) :
    stripNew (sortByIdx P) = rows := by
  have hpermS : ((sortByIdx P).map Prod.fst).Perm rows :=
    ((List.perm_insertionSort pairLeIdx P).map Prod.fst).trans hperm
  have hrowsSorted : List.Pairwise rowLtIdx rows := by
    have hpw : List.Pairwise (· < ·) (rows.map Row.idx) := by
      rw [hidx]; exact List.pairwise_lt_range _
    exact (List.pairwise_map (f := Row.idx)).mp hpw
  have hsortedP : List.Sorted pairLeIdx (sortByIdx P) :=
    List.sorted_insertionSort pairLeIdx P
  have hle : List.Pairwise (fun a b : Row => a.idx ≤ b.idx)
      ((sortByIdx P).map Prod.fst) :=
    List.pairwise_map.mpr hsortedP
  have hnd : (((sortByIdx P).map Prod.fst).map Row.idx).Nodup := by
    have hp2 : (((sortByIdx P).map Prod.fst).map Row.idx).Perm (rows.map Row.idx) :=
      hpermS.map Row.idx
    rw [hidx] at hp2
    exact hp2.symm.nodup (List.nodup_range _)
  have hne : List.Pairwise (fun a b : Row => a.idx ≠ b.idx)
      ((sortByIdx P).map Prod.fst) :=
    (List.pairwise_map (f := Row.idx)).mp hnd
  have hlt : List.Pairwise rowLtIdx ((sortByIdx P).map Prod.fst) :=
    (hle.and hne).imp (fun h => lt_of_le_of_ne h.1 h.2)
  exact List.eq_of_perm_of_sorted hpermS hlt hrowsSorted

theorem stripNew_groups_perm (rows : List Row) (gs : List (List Row))
    (F : List Row → List (String × List (Option Val)))
    (hflat : gs.flatten.Perm rows) :
    (((gs.map (fun g => attachCells g (F g))).flatten).map Prod.fst).Perm rows := by
  rw [List.map_flatten, List.map_map]
  have hc : ∀ g ∈ gs, (List.map Prod.fst ∘ fun g => attachCells g (F g)) g = g := by
    intro g _
    exact stripNew_attachCells g (F g)
  have hmaps : gs.map (List.map Prod.fst ∘ fun g => attachCells g (F g)) = gs := by
    rw [List.map_congr_left hc]
    simp
  rw [hmaps]
  exact hflat

theorem sortGD_flatten_perm (rows : List Row) :
    (splitRuns (sortGD rows)).flatten.Perm rows := by
  rw [flatten_splitRuns]
  exact List.perm_insertionSort rowLeGD rows

theorem groups_flatten_perm (grouped : Bool) (rows : List Row) :
    (if grouped then splitRuns (sortGD rows) else [sortDate rows]).flatten.Perm rows := by
  cases grouped with
  | true => simpa using sortGD_flatten_perm rows
  | false => simpa using List.perm_insertionSort rowLeDate rows

theorem expandingApply_getD (mp : Nat) (f : List Val → Option Val) (xs : List Val)
    (i : Nat) (hi : i < xs.length) :
    (expandingApply mp f xs).getD i none =
      if mp ≤ i + 1 then f (xs.take (i + 1)) else none := by
  unfold expandingApply
  rw [List.getD_eq_getElem?_getD, List.getElem?_map, List.getElem?_range hi]
  rfl

theorem expandingFrameApply_getD (mp : Nat) (f : List Row → Option Val)
    (g : List Row) (i : Nat) (hi : i < g.length) :
    (expandingFrameApply mp f g).getD i none =
      if mp ≤ i + 1 then f (g.take (i + 1)) else none := by
  unfold expandingFrameApply
  rw [List.getD_eq_getElem?_getD, List.getElem?_map, List.getElem?_range hi]
  rfl

theorem rollingStat_eq_expandingApply (ws mp : Nat) (f : List Val → Option Val)
    (xs : List Val) (h : xs.length ≤ ws) :
    rollingStat ws mp f xs = expandingApply mp f xs := by
  unfold rollingStat expandingApply
  apply List.map_congr_left
  intro i hi
  rw [List.mem_range] at hi
  have h1 : i + 1 - ws = 0 := Nat.sub_eq_zero_of_le ((Nat.succ_le_of_lt hi).trans h)
  rw [h1, List.drop_zero]
  have h2 : (xs.take (i + 1)).length = i + 1 := by
    rw [List.length_take]
    exact min_eq_left (Nat.succ_le_of_lt hi)
  rw [h2]

theorem rollingStat_getD (ws mp : Nat) (f : List Val → Option Val) (xs : List Val)
    (i : Nat) (hi : i < xs.length) :
    (rollingStat ws mp f xs).getD i none =
      if mp ≤ ((xs.take (i + 1)).drop (i + 1 - ws)).length
      then f ((xs.take (i + 1)).drop (i + 1 - ws)) else none := by
  unfold rollingStat
  rw [List.getD_eq_getElem?_getD, List.getElem?_map, List.getElem?_range hi]
  rfl

theorem rollingStat_skew_getD_none (ws : Nat) (f : List Val → Option Val)
    (xs : List Val) (i : Nat) (hi : i < xs.length) (hlt : i + 1 < ws) :
    (rollingStat ws ws f xs).getD i none = none := by
  rw [rollingStat_getD ws ws f xs i hi]
  have h1 : i + 1 - ws = 0 := Nat.sub_eq_zero_of_le hlt.le
  rw [h1, List.drop_zero]
  have h2 : (xs.take (i + 1)).length = i + 1 := by
    rw [List.length_take]
    exact min_eq_left (Nat.succ_le_of_lt hi)
  rw [h2, if_neg (by omega)]

theorem lookup_mapUpd (u : List (String × Val)) (k : String) : ∀ d : List (String × Val),
    (d.map (fun kv =>
        match u.lookup kv.1 with | some v => (kv.1, v) | none => kv)).lookup k =
      (d.lookup k).map (fun v => (u.lookup k).getD v) := by
  intro d
  induction d with
  | nil => rfl
  | cons kv d' ih =>
    obtain ⟨k1, v1⟩ := kv
    by_cases hk : k = k1
    · subst hk
      cases hu : u.lookup k <;> simp [List.lookup, hu]
    · have hbeq : (k == k1) = false := by simp [hk]
      cases hu : u.lookup k1 <;> simp [List.lookup, hbeq, hu, ih]

theorem lookup_append_chain (k : String) : ∀ A B : List (String × Val),
    (A ++ B).lookup k =
      match A.lookup k with | some v => some v | none => B.lookup k := by
  intro A B
  induction A with
  | nil => rfl
  | cons kv A' ih =>
    obtain ⟨k1, v1⟩ := kv
    by_cases hk : k = k1
    · subst hk; simp [List.lookup]
    · have hbeq : (k == k1) = false := by simp [hk]
      simp [List.lookup, hbeq, ih]

theorem lookup_filter_keyTrue (p : String × Val → Bool) (k : String)
    (hp : ∀ v : Val, p (k, v) = true) : ∀ u : List (String × Val),
    (u.filter p).lookup k = u.lookup k := by
  intro u
  induction u with
  | nil => rfl
  | cons kv u' ih =>
    obtain ⟨k1, v1⟩ := kv
    by_cases hk : k = k1
    · subst hk
      simp [List.filter, hp v1, List.lookup]
    · have hbeq : (k == k1) = false := by simp [hk]
      cases hpk : p (k1, v1) <;> simp [List.filter, hpk, List.lookup, hbeq, ih]

theorem lookup_filter_keyFalse (p : String × Val → Bool) (k : String)
    (hp : ∀ v : Val, p (k, v) = false) : ∀ u : List (String × Val),
    (u.filter p).lookup k = none := by
  intro u
  induction u with
  | nil => rfl
  | cons kv u' ih =>
    obtain ⟨k1, v1⟩ := kv
    by_cases hk : k = k1
    · subst hk
      simp [List.filter, hp v1, ih]
    · have hbeq : (k == k1) = false := by simp [hk]
      cases hpk : p (k1, v1) <;> simp [List.filter, hpk, List.lookup, hbeq, ih]

theorem lookup_dictUpdate (d u : List (String × Val)) (k : String) :
    (dictUpdate d u).lookup k =
      match u.lookup k with
      | some v => some v
      | none => d.lookup k := by
  unfold dictUpdate
  rw [lookup_append_chain, lookup_mapUpd]
  cases hd : d.lookup k with
  | some v0 =>
    cases hu : u.lookup k <;> simp [hu]
  | none =>
    have hfil : (u.filter (fun kv => (d.lookup kv.1).isNone)).lookup k = u.lookup k := by
      apply lookup_filter_keyTrue
      intro v
      simp [hd]
    simp only [Option.map_none']
    rw [hfil]
    cases hu : u.lookup k <;> rfl

theorem getD_heapAlloc (h : Heap) (d : DFrame) (i : Nat) (hi : i < h.length) :
    (heapAlloc h d).1.getD i [] = h.getD i [] := by
  unfold heapAlloc
  rw [List.getD_eq_getElem?_getD, List.getD_eq_getElem?_getD]
  show (h ++ [d])[i]?.getD [] = h[i]?.getD []
  rw [List.getElem?_append, if_pos hi]

theorem getD_heapSet_ne (h : Heap) (j : Nat) (d : DFrame) (i : Nat) (hij : i ≠ j) :
    (heapSet h j d).getD i [] = h.getD i [] := by
  unfold heapSet
  rw [List.getD_eq_getElem?_getD, List.getD_eq_getElem?_getD,
    List.getElem?_set_ne (Ne.symm hij)]

theorem length_heapAlloc (h : Heap) (d : DFrame) :
    (heapAlloc h d).1.length = h.length + 1 := by
  simp [heapAlloc]

theorem allocEmpties_spec (k : Nat) : ∀ h : Heap,
    (allocEmpties h k).1.length = h.length + k
      ∧ (∀ i ∈ (allocEmpties h k).2, h.length ≤ i)
      ∧ (∀ i < h.length, (allocEmpties h k).1.getD i [] = h.getD i []) := by
  induction k with
  | zero =>
    intro h
    refine ⟨rfl, ?_, ?_⟩
    · intro i hi; simp [allocEmpties] at hi
    · intro i _; rfl
  | succ k ih =>
    intro h
    have hrec := ih (heapAlloc h []).1
    have hl : (heapAlloc h []).1.length = h.length + 1 := length_heapAlloc h []
    refine ⟨?_, ?_, ?_⟩
    · show (allocEmpties (heapAlloc h []).1 k).1.length = h.length + (k + 1)
      rw [hrec.1, hl]; omega
    · intro i hi
      simp only [allocEmpties] at hi
      rcases List.mem_cons.mp hi with hhd | htl
      · subst hhd; exact le_refl _
      · have := hrec.2.1 i htl
        rw [hl] at this; omega
    · intro i hi
      show (allocEmpties (heapAlloc h []).1 k).1.getD i [] = h.getD i []
      rw [hrec.2.2 i (by rw [hl]; omega)]
      exact getD_heapAlloc h [] i hi

theorem getD_writeFrames (ws : List (Nat × DFrame)) : ∀ (h : Heap) (i : Nat),
    (∀ w ∈ ws, i ≠ w.1) → (writeFrames h ws).getD i [] = h.getD i [] := by
  induction ws with
  | nil => intro h i _; rfl
  | cons w ws ih =>
    intro h i hne
    show (writeFrames (heapSet h w.1 w.2) ws).getD i [] = h.getD i []
    rw [ih (heapSet h w.1 w.2) i (fun v hv => hne v (List.mem_cons_of_mem w hv))]
    exact getD_heapSet_ne h w.1 w.2 i (hne w (List.mem_cons_self w ws))

theorem length_writeFrames (ws : List (Nat × DFrame)) : ∀ h : Heap,
    (writeFrames h ws).length = h.length := by
  induction ws with
  | nil => intro h; rfl
  | cons w ws ih =>
    intro h
    show (writeFrames (heapSet h w.1 w.2) ws).length = h.length
    rw [ih (heapSet h w.1 w.2)]
    simp [heapSet]

theorem pandasPipeline_ok (prims : String → List Val → Option Val)
    (qprim : Val → List Val → Option Val) (grouped : Bool) (rows : List Row)
    (vcols : List String) (wf : PyObj) (mp : Nat) (q : Val) (out : List ORow)
    (hidx : indexed rows)
    (hok : pandasPipeline prims qprim grouped rows vcols wf mp q = .ok out) :
    stripNew out = rows ∧ ∃ names, ∀ p ∈ out, p.2.map Prod.fst = names := by
  unfold pandasPipeline at hok
  cases hiter : pyIter wf with
  | error e => simp [hiter] at hok
  | ok ds =>
    cases hres : pandasResolveAll prims qprim q mp vcols ds with
    | error e => simp [hiter, hres] at hok
    | ok rs =>
      simp only [hiter, hres] at hok
      injection hok with hok
      subst hok
      constructor
      · refine stripNew_sortByIdx_of_perm rows _ hidx ?_
        have hfun : pandasComputeGroup rs = fun g =>
            attachCells g (rs.map (fun e =>
              (e.1, e.2.2 (g.map (fun r => r.valueAt e.2.1))))) := rfl
        rw [hfun]
        exact stripNew_groups_perm rows _ _ (groups_flatten_perm grouped rows)
      · refine ⟨rs.map (fun e => e.1), ?_⟩
        intro p hp
        have hp2 : p ∈ ((if grouped then splitRuns (sortGD rows)
            else [sortDate rows]).map (pandasComputeGroup rs)).flatten :=
          ((List.perm_insertionSort pairLeIdx _).mem_iff).mp hp
        rw [List.mem_flatten] at hp2
        obtain ⟨blk, hblk, hpblk⟩ := hp2
        rw [List.mem_map] at hblk
        obtain ⟨g, _, rfl⟩ := hblk
        have hn := attachCells_names g _ p hpblk
        rw [hn, List.map_map]
        rfl

theorem polarsPipeline_ok (prims : String → List Val → Option Val) (grouped : Bool)
    (rows : List Row) (vcols : List String) (wf : PyObj) (mp : Nat) (out : List ORow)
    (hidx : indexed rows)
    (hok : polarsPipeline prims grouped rows vcols wf mp = .ok out) :
    stripNew out = rows ∧ ∃ names, ∀ p ∈ out, p.2.map Prod.fst = names := by
  unfold polarsPipeline at hok
  cases hiter : pyIter wf with
  | error e => simp [hiter] at hok
  | ok ds =>
    cases hres : polarsBuildExprs rows.length mp vcols ds with
    | error e => simp [hiter, hres] at hok
    | ok es =>
      simp only [hiter, hres] at hok
      cases grouped with
      | true =>
        rw [if_pos rfl] at hok
        injection hok with hok
        subst hok
        constructor
        · refine stripNew_sortByIdx_of_perm rows _ hidx ?_
          rw [stripNew_attachCells rows]
        · refine ⟨es.map (fun e => e.1), ?_⟩
          intro p hp
          have hp2 := ((List.perm_insertionSort pairLeIdx _).mem_iff).mp hp
          have hn := attachCells_names _ _ p hp2
          rw [hn, List.map_map]
          rfl
      | false =>
        rw [if_neg (by decide)] at hok
        injection hok with hok
        subst hok
        constructor
        · refine stripNew_sortByIdx_of_perm rows _ hidx ?_
          rw [stripNew_attachCells (sortDate rows)]
          exact List.perm_insertionSort rowLeDate rows
        · refine ⟨es.map (fun e => e.1), ?_⟩
          intro p hp
          have hp2 := ((List.perm_insertionSort pairLeIdx _).mem_iff).mp hp
          have hn := attachCells_names _ _ p hp2
          rw [hn, List.map_map]
          rfl

theorem applyPipeline_ok (grouped : Bool) (rows : List Row) (wf : PyObj)
    (min_periods : Option Nat) (out : List ORow) (hidx : indexed rows)
    (hok : augment_expanding_apply grouped rows wf min_periods = .ok out) :
    stripNew out = rows ∧ ∃ names, ∀ p ∈ out, p.2.map Prod.fst = names := by
  unfold augment_expanding_apply at hok
  cases hiter : pyIter wf with
  | error e => simp [hiter] at hok
  | ok ds =>
    cases hres : exceptMapM (applyResolveDesc (min_periods.getD 1)) ds with
    | error e => simp [hiter, hres] at hok
    | ok rs =>
      simp only [hiter, hres] at hok
      injection hok with hok
      subst hok
      constructor
      · refine stripNew_sortByIdx_of_perm rows _ hidx ?_
        exact stripNew_groups_perm rows _ _ (groups_flatten_perm grouped rows)
      · refine ⟨rs.map (fun e => e.1), ?_⟩
        intro p hp
        have hp2 : p ∈ ((if grouped then splitRuns (sortGD rows)
            else [sortDate rows]).map (fun g =>
              attachCells g (rs.map (fun r => (r.1, r.2 g))))).flatten :=
          ((List.perm_insertionSort pairLeIdx _).mem_iff).mp hp
        rw [List.mem_flatten] at hp2
        obtain ⟨blk, hblk, hpblk⟩ := hp2
        rw [List.mem_map] at hblk
        obtain ⟨g, _, rfl⟩ := hblk
        have hn := attachCells_names g _ p hpblk
        rw [hn, List.map_map]
        rfl

theorem getD_allocWriteGroups (h : Heap) (gs : List DFrame) (i : Nat)
    (hi : i < h.length) :
    (allocWriteGroups h gs).1.getD i [] = h.getD i [] := by
  unfold allocWriteGroups
  have hspec := allocEmpties_spec gs.length h
  rw [getD_writeFrames]
  · exact hspec.2.2 i hi
  · intro w hw
    have hfst : w.1 ∈ (allocEmpties h gs.length).2 := (List.of_mem_zip hw).1
    have := hspec.2.1 w.1 hfst
    omega

theorem length_allocWriteGroups (h : Heap) (gs : List DFrame) :
    h.length ≤ (allocWriteGroups h gs).1.length := by
  unfold allocWriteGroups
  rw [length_writeFrames, (allocEmpties_spec gs.length h).1]
  omega

theorem getD_after_two_awg (h0 : Heap) (gs1 gs2 : List DFrame) (i : Nat)
    (hi : i < h0.length) :
    (allocWriteGroups (allocWriteGroups h0 gs1).1 gs2).1.getD i [] = h0.getD i [] := by
  rw [getD_allocWriteGroups _ _ _ (lt_of_lt_of_le hi (length_allocWriteGroups h0 gs1))]
  exact getD_allocWriteGroups h0 gs1 i hi

/-- Shorthand for a sample row with a single value column `v`. -/
def exRow (i : Nat) (g d : Int) (v : Val) : Row := ⟨i, g, d, [("v", v)]⟩

/-- A one-group sample table, already in date order. -/
def c1rows : List Row := [exRow 0 1 1 10, exRow 1 1 2 20, exRow 2 1 3 30]

/-- A two-row ungrouped sample table. -/
def c2rows : List Row := [exRow 0 0 1 10, exRow 1 0 2 20]

/-- A two-group sample table whose original row order interleaves the
groups (so the original order differs from the sorted-by-group order). -/
def c3rows : List Row := [exRow 0 2 1 10, exRow 1 1 1 1, exRow 2 2 2 20, exRow 3 1 2 2]

/-- C10: for every input, calling `augment_expanding` with an engine that is
neither `pandas` nor `polars` raises the invalid-engine `ValueError` (lines
182-187) and performs no expanding computation: the result is exactly that
error, never a partial table. -/
theorem C10_invalid_engine (prims_pd prims_pl : String → List Val → Option Val)
    (qprim : Val → List Val → Option Val) (grouped : Bool) (rows : List Row)
    (vcols : List String) (wf : PyObj) (mp : Option Nat) (engine : String)
    (q : Val) (h1 : engine ≠ "pandas") (h2 : engine ≠ "polars") :
    augment_expanding prims_pd prims_pl qprim grouped rows vcols wf mp engine q =
      .error ⟨"ValueError", "Invalid engine. Use pandas or polars."⟩ := by
  unfold augment_expanding
  rw [if_neg h1, if_neg h2]

/-- C10 witness: the theorem applied at `engine = dask` on a concrete call. -/
theorem C10_invalid_engine_witness :
    augment_expanding examplePrims examplePrims exampleQPrim false c1rows ["v"]
        (.pstr "mean") (some 1) "dask" (1/2) =
      .error ⟨"ValueError", "Invalid engine. Use pandas or polars."⟩ :=
  C10_invalid_engine examplePrims examplePrims exampleQPrim false c1rows ["v"]
    (.pstr "mean") (some 1) "dask" (1/2) (by decide) (by decide)

/-- C1: for every input table with the default RangeIndex and every
successful invocation of `augment_expanding` (either backend) or
`augment_expanding_apply`, the output contains exactly the input rows, in
the input order, with every original column unchanged and the new columns
appended uniformly to every row — no row dropped or duplicated, regardless
of the internal sort-for-computation. -/
theorem C1_order_preservation (prims_pd prims_pl : String → List Val → Option Val)
    (qprim : Val → List Val → Option Val) (grouped : Bool) (rows : List Row)
    (vcols : List String) (wf : PyObj) (mp : Option Nat) (engine : String)
    (q : Val) (out out2 : List ORow) (hidx : indexed rows) :
    (augment_expanding prims_pd prims_pl qprim grouped rows vcols wf mp engine q
        = .ok out →
      stripNew out = rows ∧ out.length = rows.length ∧
        ∃ names, ∀ p ∈ out, p.2.map Prod.fst = names)
    ∧ (augment_expanding_apply grouped rows wf mp = .ok out2 →
      stripNew out2 = rows ∧ out2.length = rows.length ∧
        ∃ names, ∀ p ∈ out2, p.2.map Prod.fst = names) := by
  constructor
  · intro hok
    unfold augment_expanding at hok
    by_cases he : engine = "pandas"
    · rw [if_pos he] at hok
      have h := pandasPipeline_ok _ _ _ _ _ _ _ _ _ hidx hok
      refine ⟨h.1, ?_, h.2⟩
      rw [← h.1]
      simp [stripNew]
    · rw [if_neg he] at hok
      by_cases he2 : engine = "polars"
      · rw [if_pos he2] at hok
        have h := polarsPipeline_ok _ _ _ _ _ _ _ hidx hok
        refine ⟨h.1, ?_, h.2⟩
        rw [← h.1]
        simp [stripNew]
      · rw [if_neg he2] at hok
        exact Except.noConfusion hok
  · intro hok
    have h := applyPipeline_ok _ _ _ _ _ hidx hok
    refine ⟨h.1, ?_, h.2⟩
    rw [← h.1]
    simp [stripNew]

/-- The concrete pandas output used to witness C1. -/
def c1out : List ORow :=
  (augment_expanding examplePrims examplePrims exampleQPrim true c1rows ["v"]
    (.pstr "mean") (some 1) "pandas" (1/2)).toOption.getD []

/-- The window-function argument of the concrete apply invocation below. -/
def c1wf2 : PyObj :=
  .plist [.ptuple [.pstr "winsum",
    .pcall (.raises "TypeError" "missing 1 required positional argument") statSum
      (fun g => statSum (g.map (fun r => r.valueAt "v")))]]

/-- The concrete apply output used to witness C1. -/
def c1out2 : List ORow :=
  (augment_expanding_apply true c1rows c1wf2 (some 1)).toOption.getD []

/-- C1 witness: the theorem applied at a concrete grouped table, both for
the pandas backend and for `augment_expanding_apply`. -/
theorem C1_order_preservation_witness :
    stripNew c1out = c1rows ∧ stripNew c1out2 = c1rows := by
  constructor
  · exact ((C1_order_preservation examplePrims examplePrims exampleQPrim true c1rows
      ["v"] (.pstr "mean") (some 1) "pandas" (1/2) c1out c1out2 rfl).1 rfl).1
  · exact ((C1_order_preservation examplePrims examplePrims exampleQPrim true c1rows
      ["v"] c1wf2 (some 1) "pandas" (1/2) c1out c1out2 rfl).2 rfl).1

/-- C2 (amended): within a group in date order, for every statistic `f` and
minimum count `mp`, positions `0..mp-2` carry the missing marker and
position `i ≥ mp-1` carries the statistic of exactly the window `0..i` — on
the pandas backend, on `augment_expanding_apply`, and on the polars backend
for every named statistic except `skew` (the rolling window with
`window_size ≥` group length is exactly the expanding window); for `skew`
the polars path does not forward `min_periods` (line 497), so position `i`
is null whenever `i + 1 <` the total row count, regardless of `mp`. -/
theorem C2_min_periods_boundary (f : List Val → Option Val) (fr : List Row → Option Val)
    (xs : List Val) (mp ws i : Nat) (g : List Row)
    (hi : i < xs.length) (hws : xs.length ≤ ws) (hig : i < g.length) :
    ((i + 1 < mp → (expandingApply mp f xs).getD i none = none)
      ∧ (mp ≤ i + 1 → (expandingApply mp f xs).getD i none = f (xs.take (i + 1))))
    ∧ rollingStat ws mp f xs = expandingApply mp f xs
    ∧ (i + 1 < mp → (expandingFrameApply mp fr g).getD i none = none)
    ∧ (i + 1 < ws → (rollingStat ws ws f xs).getD i none = none) := by
  refine ⟨⟨?_, ?_⟩, ?_, ?_, ?_⟩
  · intro hlt
    rw [expandingApply_getD mp f xs i hi, if_neg (by omega)]
  · intro hle
    rw [expandingApply_getD mp f xs i hi, if_pos hle]
  · exact rollingStat_eq_expandingApply ws mp f xs hws
  · intro hlt
    rw [expandingFrameApply_getD mp fr g i hig, if_neg (by omega)]
  · intro hlt
    exact rollingStat_skew_getD_none ws f xs i hi hlt

/-- C2 witness: the amended boundary at a concrete column, count and
position. -/
theorem C2_min_periods_boundary_witness :
    (expandingApply 2 statMean [1, 2, 3]).getD 2 none = statMean [1, 2, 3]
      ∧ rollingStat 5 2 statMean [1, 2, 3] = expandingApply 2 statMean [1, 2, 3]
      ∧ (rollingStat 5 5 statMean [1, 2, 3]).getD 2 none = none := by
  have h := C2_min_periods_boundary statMean (fun _ => none) [1, 2, 3] 2 5 2 c1rows
    (by decide) (by decide) (by decide)
  exact ⟨h.1.2 (by decide), h.2.1, h.2.2.2 (by decide)⟩

/-- C2 counterexample: on the polars backend with `min_periods = 1` the
claim puts a computed value at position `k - 1 = 0` for every statistic,
`skew` included; the code leaves position 0 null for `skew` even though the
primitive map returns a value on every window (`rolling_skew` is built
without `min_periods`, line 497). -/
theorem C2_cex_polars_skew :
    ((augment_expanding constPrims constPrims exampleQPrim false c2rows ["v"]
        (.pstr "skew") (some 1) "polars" (1/2)).toOption.getD []).map (fun p => p.2) =
      [[("v_expanding_skew", none)], [("v_expanding_skew", some 30)]]
    ∧ constPrims "skew" [10] = some 10 := by
  exact ⟨by rfl, by rfl⟩

/-- The pandas output at the C3 failing input. -/
def c3pandas : List ORow :=
  (augment_expanding examplePrims examplePrims exampleQPrim true c3rows ["v"]
    (.pstr "sum") (some 1) "pandas" (1/2)).toOption.getD []

/-- The polars output at the C3 failing input. -/
def c3polars : List ORow :=
  (augment_expanding examplePrims examplePrims exampleQPrim true c3rows ["v"]
    (.pstr "sum") (some 1) "polars" (1/2)).toOption.getD []

/-- C3: with identical primitive maps on both backends and the grouped
input `c3rows` (group order differing from original row order), the two
backends return the same rows and the same new column name but different
cell values: the pandas backend attaches each expanding sum to its own row,
while the polars grouped path (lines 513-523) horizontally concatenates the
group-sorted, exploded results against the original-order frame, attaching
the i-th sorted value to the i-th original row. -/
theorem C3_backend_divergence :
    stripNew c3pandas = c3rows ∧ stripNew c3polars = c3rows
      ∧ c3pandas.map (fun p => p.2) =
          [[("v_expanding_sum", some 10)], [("v_expanding_sum", some 1)],
           [("v_expanding_sum", some 30)], [("v_expanding_sum", some 3)]]
      ∧ c3polars.map (fun p => p.2) =
          [[("v_expanding_sum", some 1)], [("v_expanding_sum", some 3)],
           [("v_expanding_sum", some 10)], [("v_expanding_sum", some 30)]]
      ∧ c3pandas.map (fun p => p.2) ≠ c3polars.map (fun p => p.2) := by
  refine ⟨by rfl, by rfl, by rfl, by rfl, by decide⟩

/-- C4 (amended): the polars backend probes each (name, callable)
descriptor by a zero-argument invocation; when the probe returns the tagged
configurable tuple the descriptor becomes a configurable rolling expression
and the callable is invoked exactly twice per descriptor (lines 450 and
454) — not once, and not once per row (the count is independent of the
window size, the minimum count, and the data); when the probe raises
`TypeError` whose message contains the missing-argument text, the
descriptor becomes a per-window `rolling_apply` of the callable; any other
raised error propagates unchanged. -/
theorem C4_probe_classification (n mp : Nat) (col nm : String)
    (fser : List Val → Option Val) (ff : List Row → Option Val)
    (target : String) (dk uk : List (String × Val)) (et m : String) :
    (polarsProcessDesc n mp col (.ptuple [.pstr nm,
        .pcall (.returns (.ptuple [.pstr "configurable", .pstr target,
          .pdict dk, .pdict uk])) fser ff]) =
      (2, (polarsRollingConfig nm target (mergeKwargs dk uk n mp)).map
            (fun e => (col ++ "_expanding_" ++ nm, e))))
    ∧ (et = "TypeError" → strContains m "missing 1 required positional argument" = true →
        polarsProcessDesc n mp col (.ptuple [.pstr nm, .pcall (.raises et m) fser ff]) =
          (1, .ok (col ++ "_expanding_" ++ nm, .rollingApplyE n mp fser)))
    ∧ ((et = "TypeError" → strContains m "missing 1 required positional argument" = false) →
        polarsProcessDesc n mp col (.ptuple [.pstr nm, .pcall (.raises et m) fser ff]) =
          (1, .error ⟨et, m⟩)) := by
  refine ⟨?_, ?_, ?_⟩
  · rfl
  · intro h1 h2
    simp only [polarsProcessDesc]
    rw [if_pos ⟨h1, h2⟩]
  · intro h
    simp only [polarsProcessDesc]
    by_cases h1 : et = "TypeError"
    · rw [if_neg]
      intro hc
      rw [h hc.1] at hc
      exact Bool.false_ne_true hc.2
    · rw [if_neg]
      intro hc
      exact h1 hc.1

/-- C4 witness: the classification at a concrete configurable descriptor, a
concrete identity descriptor, and a concrete propagating error. -/
theorem C4_probe_classification_witness :
    (polarsProcessDesc 5 2 "v" (.ptuple [.pstr "q75",
        .pcall (.returns (.ptuple [.pstr "configurable", .pstr "quantile",
          .pdict [("quantile", 1)], .pdict []])) statSum (fun _ => none)]) =
      (2, (polarsRollingConfig "q75" "quantile"
            (mergeKwargs [("quantile", 1)] [] 5 2)).map
            (fun e => ("v" ++ "_expanding_" ++ "q75", e))))
    ∧ (polarsProcessDesc 5 2 "v" (.ptuple [.pstr "range",
        .pcall (.raises "TypeError"
          "lambda missing 1 required positional argument: x") statMax (fun _ => none)]) =
        (1, .ok ("v" ++ "_expanding_" ++ "range", .rollingApplyE 5 2 statMax)))
    ∧ (polarsProcessDesc 5 2 "v" (.ptuple [.pstr "bad",
        .pcall (.raises "ZeroDivisionError" "division by zero") statMax (fun _ => none)]) =
        (1, .error ⟨"ZeroDivisionError", "division by zero"⟩)) := by
  refine ⟨?_, ?_, ?_⟩
  · exact (C4_probe_classification 5 2 "v" "q75" statSum (fun _ => none) "quantile"
      [("quantile", 1)] [] "x" "y").1
  · exact (C4_probe_classification 5 2 "v" "range" statMax (fun _ => none) "t" [] []
      "TypeError" "lambda missing 1 required positional argument: x").2.1 rfl (by decide)
  · exact (C4_probe_classification 5 2 "v" "bad" statMax (fun _ => none) "t" [] []
      "ZeroDivisionError" "division by zero").2.2 (fun hc => absurd hc (by decide))

/-- C4 counterexample: the claim says the zero-argument callable of a
configurable descriptor is evaluated exactly once per descriptor; the code
evaluates it twice (once for the probe at line 450 and once for the
unpacking at line 454). -/
theorem C4_cex_double_evaluation :
    (polarsProcessDesc 5 2 "v" (.ptuple [.pstr "q75",
        .pcall (.returns (.ptuple [.pstr "configurable", .pstr "mean",
          .pdict [], .pdict []])) statSum (fun _ => none)])).1 = 2
    ∧ (2 : Nat) ≠ 1 := ⟨rfl, by decide⟩

/-- C5 (amended): for a configurable reducer the engine substitutes
`window_size` equal to the total row count of the table (not the group
length: line 458 uses `pandas_df.shape[0]`) and `min_periods` into the
parameter mapping, overriding the user on those two keys; on every other
key the user mapping wins over the defaults. -/
theorem C5_kwargs_merge (dk uk : List (String × Val)) (n mp : Nat) (k : String)
    (hk1 : k ≠ "window_size") (hk2 : k ≠ "min_periods") :
    (mergeKwargs dk uk n mp).lookup "window_size" = some (n : Val)
      ∧ (mergeKwargs dk uk n mp).lookup "min_periods" = some (mp : Val)
      ∧ (mergeKwargs dk uk n mp).lookup k =
          (match uk.lookup k with | some v => some v | none => dk.lookup k) := by
  unfold mergeKwargs
  refine ⟨?_, ?_, ?_⟩
  · rw [lookup_dictUpdate, lookup_dictUpdate]
    rfl
  · rw [lookup_dictUpdate, lookup_dictUpdate]
    rfl
  · rw [lookup_dictUpdate, lookup_dictUpdate]
    have he : ([("window_size", (n : Val)), ("min_periods", (mp : Val))]).lookup k
        = none := by
      have h1 : (k == "window_size") = false := by simp [hk1]
      have h2 : (k == "min_periods") = false := by simp [hk2]
      simp [List.lookup, h1, h2]
    rw [he]

/-- C5 witness: the merge at concrete mappings — the engine overrides the
user-supplied `window_size`, and the user wins over the defaults on
`quantile`. -/
theorem C5_kwargs_merge_witness :
    (mergeKwargs [("quantile", 1), ("interpolation", 0)]
        [("quantile", 3), ("window_size", 99)] 4 2).lookup "window_size" = some 4
      ∧ (mergeKwargs [("quantile", 1), ("interpolation", 0)]
          [("quantile", 3), ("window_size", 99)] 4 2).lookup "min_periods" = some 2
      ∧ (mergeKwargs [("quantile", 1), ("interpolation", 0)]
          [("quantile", 3), ("window_size", 99)] 4 2).lookup "quantile" = some 3 := by
  have h := C5_kwargs_merge [("quantile", 1), ("interpolation", 0)]
    [("quantile", 3), ("window_size", 99)] 4 2 "quantile" (by decide) (by decide)
  exact ⟨h.1, h.2.1, by rw [h.2.2]; rfl⟩

/-- The configurable descriptor used in the C5 counterexample. -/
def c5desc : PyObj :=
  .ptuple [.pstr "m", .pcall (.returns (.ptuple [.pstr "configurable",
    .pstr "mean", .pdict [], .pdict []])) statSum (fun _ => none)]

/-- The kwargs of the expression the polars pipeline builds for `c5desc` on
the grouped three-row table `c3rows` restricted to its first three rows. -/
def c5kwargs : List (String × Val) :=
  match polarsBuildExprs c1rows.length 1 ["v"] [c5desc] with
  | .ok [(_, _, .rollingConfig _ k)] => k
  | _ => []

/-- C5 counterexample: the claim says `window_size` equals the length of
the row group; the engine substitutes the total row count (3 for `c1rows`)
once per descriptor, before any group is formed, so for the grouped table
`c3rows` (whose groups have length 2) the pipeline also builds
`window_size = 4`, not 2. -/
theorem C5_cex_window_size :
    c5kwargs.lookup "window_size" = some 3
      ∧ (match polarsBuildExprs c3rows.length 1 ["v"] [c5desc] with
          | .ok [(_, _, .rollingConfig _ k)] => k
          | _ => []).lookup "window_size" = some 4
      ∧ (splitRuns (sortGD c3rows)).map List.length = [2, 2]
      ∧ (4 : Val) ≠ 2 := by
  refine ⟨by rfl, by rfl, by rfl, by decide⟩

theorem pandasResolveAll_single (prims : String → List Val → Option Val)
    (qprim : Val → List Val → Option Val) (q : Val) (mp : Nat) (col : String)
    (d : PyObj) :
    pandasResolveAll prims qprim q mp [col] [d] =
      match pandasResolveDesc prims qprim q mp col d with
      | .error e => .error e
      | .ok r => .ok [(r.1, col, r.2)] := by
  cases h : pandasResolveDesc prims qprim q mp col d <;>
    simp [pandasResolveAll, colProd, exceptMapM, h, Except.map]

theorem polarsBuildExprs_single (n mp : Nat) (col : String) (d : PyObj) :
    polarsBuildExprs n mp [col] [d] =
      match (polarsProcessDesc n mp col d).2 with
      | .error e => .error e
      | .ok r => .ok [(r.1, col, r.2)] := by
  cases h : (polarsProcessDesc n mp col d).2 <;>
    simp [polarsBuildExprs, colProd, exceptMapM, h, Except.map]

theorem pandasPipeline_eval (prims : String → List Val → Option Val)
    (qprim : Val → List Val → Option Val) (grouped : Bool) (rows : List Row)
    (vcols : List String) (ds : List PyObj) (mp : Nat) (q : Val)
    (rs : List (String × String × SeriesFn))
    (hres : pandasResolveAll prims qprim q mp vcols ds = .ok rs) :
    pandasPipeline prims qprim grouped rows vcols (.plist ds) mp q =
      .ok (sortByIdx (((if grouped then splitRuns (sortGD rows)
        else [sortDate rows]).map (pandasComputeGroup rs)).flatten)) := by
  simp only [pandasPipeline, pyIter, hres]

theorem pandasPipeline_error (prims : String → List Val → Option Val)
    (qprim : Val → List Val → Option Val) (grouped : Bool) (rows : List Row)
    (vcols : List String) (ds : List PyObj) (mp : Nat) (q : Val) (e : PyErr)
    (hres : pandasResolveAll prims qprim q mp vcols ds = .error e) :
    pandasPipeline prims qprim grouped rows vcols (.plist ds) mp q = .error e := by
  simp only [pandasPipeline, pyIter, hres]

theorem polarsPipeline_error (prims : String → List Val → Option Val)
    (grouped : Bool) (rows : List Row) (vcols : List String) (ds : List PyObj)
    (mp : Nat) (e : PyErr)
    (hres : polarsBuildExprs rows.length mp vcols ds = .error e) :
    polarsPipeline prims grouped rows vcols (.plist ds) mp = .error e := by
  simp only [polarsPipeline, pyIter, hres]

theorem polarsPipeline_eval_grouped (prims : String → List Val → Option Val)
    (rows : List Row) (vcols : List String) (ds : List PyObj) (mp : Nat)
    (es : List (String × String × PolExpr))
    (hres : polarsBuildExprs rows.length mp vcols ds = .ok es) :
    polarsPipeline prims true rows vcols (.plist ds) mp =
      .ok (sortByIdx (attachCells rows (es.map (fun e =>
        (e.1, ((splitRuns (sortGD rows)).map (fun g =>
          evalPolExpr prims e.2.2 (g.map (fun r => r.valueAt e.2.1)))).flatten))))) := by
  simp only [polarsPipeline, pyIter, hres, if_true]

theorem polarsPipeline_eval_ungrouped (prims : String → List Val → Option Val)
    (rows : List Row) (vcols : List String) (ds : List PyObj) (mp : Nat)
    (es : List (String × String × PolExpr))
    (hres : polarsBuildExprs rows.length mp vcols ds = .ok es) :
    polarsPipeline prims false rows vcols (.plist ds) mp =
      .ok (sortByIdx (attachCells (sortDate rows) (es.map (fun e =>
        (e.1, evalPolExpr prims e.2.2 ((sortDate rows).map
          (fun r => r.valueAt e.2.1))))))) := by
  simp only [polarsPipeline, pyIter, hres]
  rw [if_neg (by decide)]

theorem pandasComputed_names (rs : List (String × String × SeriesFn))
    (gs : List (List Row)) :
    ∀ p ∈ sortByIdx ((gs.map (pandasComputeGroup rs)).flatten),
      p.2.map Prod.fst = rs.map (fun e => e.1) := by
  intro p hp
  have hp2 := ((List.perm_insertionSort pairLeIdx _).mem_iff).mp hp
  rw [List.mem_flatten] at hp2
  obtain ⟨blk, hblk, hpblk⟩ := hp2
  rw [List.mem_map] at hblk
  obtain ⟨g, _, rfl⟩ := hblk
  have hn := attachCells_names g _ p hpblk
  rw [hn, List.map_map]
  rfl

theorem attachCells_names_sorted (g : List Row)
    (cols : List (String × List (Option Val))) :
    ∀ p ∈ sortByIdx (attachCells g cols), p.2.map Prod.fst = cols.map Prod.fst := by
  intro p hp
  exact attachCells_names g cols p
    (((List.perm_insertionSort pairLeIdx _).mem_iff).mp hp)

theorem augment_pandas_eval (prims_pd prims_pl : String → List Val → Option Val)
    (qprim : Val → List Val → Option Val) (grouped : Bool) (rows : List Row)
    (col : String) (wf : PyObj) (mp : Option Nat) (q : Val)
    (rs : List (String × String × SeriesFn))
    (hres : pandasResolveAll prims_pd qprim q (mp.getD 1) [col]
      [wf] = .ok rs) (hwf : normalizeWindowFunc wf = .plist [wf]) :
    augment_expanding prims_pd prims_pl qprim grouped rows [col] wf mp "pandas" q =
      .ok (sortByIdx (((if grouped then splitRuns (sortGD rows)
        else [sortDate rows]).map (pandasComputeGroup rs)).flatten)) := by
  simp only [augment_expanding, hwf, if_true, if_false]
  exact pandasPipeline_eval _ _ _ _ _ _ _ _ _ hres

theorem augment_pandas_error (prims_pd prims_pl : String → List Val → Option Val)
    (qprim : Val → List Val → Option Val) (grouped : Bool) (rows : List Row)
    (col : String) (wf : PyObj) (mp : Option Nat) (q : Val) (e : PyErr)
    (hres : pandasResolveAll prims_pd qprim q (mp.getD 1) [col] [wf] = .error e)
    (hwf : normalizeWindowFunc wf = .plist [wf]) :
    augment_expanding prims_pd prims_pl qprim grouped rows [col] wf mp "pandas" q =
      .error e := by
  simp only [augment_expanding, hwf, if_true, if_false]
  exact pandasPipeline_error _ _ _ _ _ _ _ _ _ hres

theorem augment_polars_error (prims_pd prims_pl : String → List Val → Option Val)
    (qprim : Val → List Val → Option Val) (grouped : Bool) (rows : List Row)
    (col : String) (wf : PyObj) (mp : Option Nat) (q : Val) (e : PyErr)
    (hres : polarsBuildExprs rows.length (mp.getD 1) [col] [wf] = .error e)
    (hwf : normalizeWindowFunc wf = .plist [wf]) :
    augment_expanding prims_pd prims_pl qprim grouped rows [col] wf mp "polars" q =
      .error e := by
  simp only [augment_expanding, hwf, if_true, if_false]
  exact polarsPipeline_error _ _ _ _ _ _ _ hres

theorem augment_polars_eval_grouped (prims_pd prims_pl : String → List Val → Option Val)
    (qprim : Val → List Val → Option Val) (rows : List Row) (col : String)
    (wf : PyObj) (mp : Option Nat) (q : Val) (es : List (String × String × PolExpr))
    (hres : polarsBuildExprs rows.length (mp.getD 1) [col] [wf] = .ok es)
    (hwf : normalizeWindowFunc wf = .plist [wf]) :
    augment_expanding prims_pd prims_pl qprim true rows [col] wf mp "polars" q =
      .ok (sortByIdx (attachCells rows (es.map (fun e =>
        (e.1, ((splitRuns (sortGD rows)).map (fun g =>
          evalPolExpr prims_pl e.2.2 (g.map (fun r => r.valueAt e.2.1)))).flatten))))) := by
  simp only [augment_expanding, hwf, if_true, if_false]
  exact polarsPipeline_eval_grouped _ _ _ _ _ _ hres

theorem augment_polars_eval_ungrouped (prims_pd prims_pl : String → List Val → Option Val)
    (qprim : Val → List Val → Option Val) (rows : List Row) (col : String)
    (wf : PyObj) (mp : Option Nat) (q : Val) (es : List (String × String × PolExpr))
    (hres : polarsBuildExprs rows.length (mp.getD 1) [col] [wf] = .ok es)
    (hwf : normalizeWindowFunc wf = .plist [wf]) :
    augment_expanding prims_pd prims_pl qprim false rows [col] wf mp "polars" q =
      .ok (sortByIdx (attachCells (sortDate rows) (es.map (fun e =>
        (e.1, evalPolExpr prims_pl e.2.2 ((sortDate rows).map
          (fun r => r.valueAt e.2.1))))))) := by
  simp only [augment_expanding, hwf, if_true, if_false]
  exact polarsPipeline_eval_ungrouped _ _ _ _ _ _ hres

/-- C6 (amended): a single descriptor — a string or a (name, callable)
tuple — passed to `augment_expanding` is normalized to the one-element list
(lines 174-176), so the two invocations agree for every engine and input;
`augment_expanding_apply` performs no such normalization (lines 380-388):
it iterates the argument directly, so a bare tuple is iterated element-wise
and the name string is rejected as a descriptor with `TypeError`. -/
theorem C6_single_descriptor_normalization
    (prims_pd prims_pl : String → List Val → Option Val)
    (qprim : Val → List Val → Option Val) (grouped : Bool) (rows : List Row)
    (vcols : List String) (mp : Option Nat) (engine : String) (q : Val)
    (d : PyObj) (nm : String) (fser : List Val → Option Val)
    (ff : List Row → Option Val) (pr : Probe)
    (hd : (∃ s, d = .pstr s) ∨ (∃ xs, d = .ptuple xs)) :
    augment_expanding prims_pd prims_pl qprim grouped rows vcols d mp engine q =
      augment_expanding prims_pd prims_pl qprim grouped rows vcols (.plist [d]) mp
        engine q
    ∧ augment_expanding_apply grouped rows (.ptuple [.pstr nm, .pcall pr fser ff]) mp =
        .error ⟨"TypeError",
          "Expected tuple, but got invalid function type: <class str>"⟩ := by
  constructor
  · rcases hd with ⟨s, rfl⟩ | ⟨xs, rfl⟩ <;> rfl
  · rfl

/-- C6 witness: the theorem applied at a concrete single string descriptor
and a concrete apply tuple. -/
theorem C6_single_descriptor_normalization_witness :
    augment_expanding examplePrims examplePrims exampleQPrim true c1rows ["v"]
        (.pstr "mean") (some 1) "pandas" 0 =
      augment_expanding examplePrims examplePrims exampleQPrim true c1rows ["v"]
        (.plist [.pstr "mean"]) (some 1) "pandas" 0
    ∧ augment_expanding_apply true c1rows (.ptuple [.pstr "range",
        .pcall (.raises "TypeError" "missing 1 required positional argument") statMax
          (fun _ => none)]) (some 1) =
      .error ⟨"TypeError",
        "Expected tuple, but got invalid function type: <class str>"⟩ :=
  C6_single_descriptor_normalization examplePrims examplePrims exampleQPrim true
    c1rows ["v"] (some 1) "pandas" 0 (.pstr "mean") "range" statMax (fun _ => none)
    (.raises "TypeError" "missing 1 required positional argument")
    (Or.inl ⟨"mean", rfl⟩)

/-- The bare tuple descriptor of the C6 counterexample. -/
def c6tuple : PyObj :=
  .ptuple [.pstr "range",
    .pcall (.raises "TypeError" "missing 1 required positional argument") statMax
      (fun g => statMax (g.map (fun r => r.valueAt "v")))]

/-- C6 counterexample: the claim says `window_func = d` and
`window_func = [d]` agree for a single (name, callable) tuple given to
`augment_expanding_apply`; the code iterates the bare tuple itself, rejects
the name string with `TypeError`, and only the wrapped form succeeds. -/
theorem C6_cex_apply_single_tuple :
    augment_expanding_apply false c2rows c6tuple (some 1) =
      .error ⟨"TypeError",
        "Expected tuple, but got invalid function type: <class str>"⟩
    ∧ exOk (augment_expanding_apply false c2rows (.plist [c6tuple]) (some 1)) = true
    ∧ exOk (augment_expanding_apply false c2rows c6tuple (some 1)) = false := by
  exact ⟨by rfl, by rfl, by rfl⟩

theorem augment_pandas_named_ok (prims_pd prims_pl : String → List Val → Option Val)
    (qprim : Val → List Val → Option Val) (grouped : Bool) (rows : List Row)
    (col : String) (mp : Option Nat) (q : Val) (s : String)
    (hmem : s = "quantile" ∨ s ∈ pandasExpandingAttrs) :
    ∃ out, augment_expanding prims_pd prims_pl qprim grouped rows [col] (.pstr s) mp
        "pandas" q = .ok out
      ∧ ∀ p ∈ out, p.2.map Prod.fst = [col ++ "_expanding_" ++ s] := by
  have hdesc : ∃ fn, pandasResolveDesc prims_pd qprim q (mp.getD 1) col (.pstr s) =
      .ok (col ++ "_expanding_" ++ s, fn) := by
    by_cases hq : s = "quantile"
    · subst hq
      exact ⟨expandingApply (mp.getD 1) (qprim q), rfl⟩
    · rcases hmem with rfl | hmem
      · exact absurd rfl hq
      · refine ⟨expandingApply (mp.getD 1) (prims_pd s), ?_⟩
        simp only [pandasResolveDesc]
        rw [if_neg hq, if_pos hmem]
  obtain ⟨fn, hdesc⟩ := hdesc
  have hres : pandasResolveAll prims_pd qprim q (mp.getD 1) [col] [.pstr s] =
      .ok [(col ++ "_expanding_" ++ s, col, fn)] := by
    rw [pandasResolveAll_single, hdesc]
  refine ⟨_, augment_pandas_eval _ _ _ _ _ _ _ _ _ _ hres rfl, ?_⟩
  intro p hp
  have hnm := pandasComputed_names _ _ p hp
  rw [hnm]
  rfl

theorem augment_polars_named_ok (prims_pd prims_pl : String → List Val → Option Val)
    (qprim : Val → List Val → Option Val) (grouped : Bool) (rows : List Row)
    (col : String) (mp : Option Nat) (q : Val) (s : String)
    (hmem : s ∈ polarsExprAttrs)
    (hok : s = "skew" ∨ (("rolling_" ++ s) ∈ polarsExprAttrs ∧ s ≠ "quantile")) :
    ∃ out, augment_expanding prims_pd prims_pl qprim grouped rows [col] (.pstr s) mp
        "polars" q = .ok out
      ∧ ∀ p ∈ out, p.2.map Prod.fst = [col ++ "_expanding_" ++ s] := by
  have hdesc : ∃ ex, (polarsProcessDesc rows.length (mp.getD 1) col (.pstr s)).2 =
      .ok (col ++ "_expanding_" ++ s, ex) := by
    by_cases hsk : s = "skew"
    · subst hsk
      refine ⟨.rollingSkew rows.length, ?_⟩
      simp only [polarsProcessDesc]
      rw [if_pos hmem]
      rfl
    · rcases hok with rfl | ⟨hroll, hq⟩
      · exact absurd rfl hsk
      · refine ⟨.rollingNamed s rows.length (mp.getD 1), ?_⟩
        simp only [polarsProcessDesc]
        rw [if_pos hmem, if_neg hsk]
        simp only [polarsRollingNamed]
        rw [if_pos hroll, if_neg hq]
        rfl
  obtain ⟨ex, hdesc⟩ := hdesc
  have hres : polarsBuildExprs rows.length (mp.getD 1) [col] [.pstr s] =
      .ok [(col ++ "_expanding_" ++ s, col, ex)] := by
    rw [polarsBuildExprs_single, hdesc]
  cases grouped with
  | true =>
    refine ⟨_, augment_polars_eval_grouped _ _ _ _ _ _ _ _ _ hres rfl, ?_⟩
    intro p hp
    have hnm := attachCells_names_sorted _ _ p hp
    rw [hnm, List.map_map]
    rfl
  | false =>
    refine ⟨_, augment_polars_eval_ungrouped _ _ _ _ _ _ _ _ _ hres rfl, ?_⟩
    intro p hp
    have hnm := attachCells_names_sorted _ _ p hp
    rw [hnm, List.map_map]
    rfl

/-- C7 (amended): every one of the eleven named statistics is computed by
the pandas backend and appended as `{col}_expanding_{s}`; a name the pandas
expanding object lacks fails the whole invocation with the `ValueError`
naming the string.  On the polars backend the eight names with a usable
`rolling_` primitive (mean, sum, std, var, min, max, median, skew) are
computed and appended; a name that is not an attribute of a polars
expression — including `kurt`, which polars spells `kurtosis` — fails the
whole invocation with the `ValueError` naming the string. -/
theorem C7_named_statistics (prims : String → List Val → Option Val)
    (qprim : Val → List Val → Option Val) (grouped : Bool) (rows : List Row)
    (col : String) (mp : Option Nat) (q : Val) (s : String) :
    (s ∈ elevenStats →
      ∃ out, augment_expanding prims prims qprim grouped rows [col] (.pstr s) mp
          "pandas" q = .ok out
        ∧ ∀ p ∈ out, p.2.map Prod.fst = [col ++ "_expanding_" ++ s])
    ∧ (s ∉ pandasExpandingAttrs → s ≠ "quantile" →
        augment_expanding prims prims qprim grouped rows [col] (.pstr s) mp
          "pandas" q = .error ⟨"ValueError", "Invalid function name: " ++ s⟩)
    ∧ (s ∈ ["mean", "sum", "std", "var", "min", "max", "median", "skew"] →
      ∃ out, augment_expanding prims prims qprim grouped rows [col] (.pstr s) mp
          "polars" q = .ok out
        ∧ ∀ p ∈ out, p.2.map Prod.fst = [col ++ "_expanding_" ++ s])
    ∧ (s ∉ polarsExprAttrs →
        augment_expanding prims prims qprim grouped rows [col] (.pstr s) mp
          "polars" q = .error ⟨"ValueError",
            s ++ " is not a recognized function for Polars."⟩) := by
  refine ⟨?_, ?_, ?_, ?_⟩
  · intro hs
    simp only [elevenStats, List.mem_cons, List.not_mem_nil, or_false] at hs
    rcases hs with rfl | rfl | rfl | rfl | rfl | rfl | rfl | rfl | rfl | rfl | rfl <;>
      first
      | exact augment_pandas_named_ok prims prims qprim grouped rows col mp q _
          (Or.inl rfl)
      | exact augment_pandas_named_ok prims prims qprim grouped rows col mp q _
          (Or.inr (by decide))
  · intro hmem hq
    refine augment_pandas_error _ _ _ _ _ _ _ _ _ _ ?_ rfl
    rw [pandasResolveAll_single]
    simp only [pandasResolveDesc]
    rw [if_neg hq, if_neg hmem]
  · intro hs
    simp only [List.mem_cons, List.not_mem_nil, or_false] at hs
    rcases hs with rfl | rfl | rfl | rfl | rfl | rfl | rfl | rfl <;>
      first
      | exact augment_polars_named_ok prims prims qprim grouped rows col mp q _
          (by decide) (Or.inl rfl)
      | exact augment_polars_named_ok prims prims qprim grouped rows col mp q _
          (by decide) (Or.inr ⟨by decide, by decide⟩)
  · intro hmem
    refine augment_polars_error _ _ _ _ _ _ _ _ _ _ ?_ rfl
    rw [polarsBuildExprs_single]
    simp only [polarsProcessDesc]
    rw [if_neg hmem]

/-- C7 witness: the theorem applied at `s = mean` (both backends compute
and name the column) and at `s = bogus` (both backends fail naming the
string). -/
theorem C7_named_statistics_witness :
    (∃ out, augment_expanding examplePrims examplePrims exampleQPrim false c2rows
        ["v"] (.pstr "mean") (some 1) "pandas" 0 = .ok out
      ∧ ∀ p ∈ out, p.2.map Prod.fst = ["v" ++ "_expanding_" ++ "mean"])
    ∧ (∃ out, augment_expanding examplePrims examplePrims exampleQPrim false c2rows
        ["v"] (.pstr "mean") (some 1) "polars" 0 = .ok out
      ∧ ∀ p ∈ out, p.2.map Prod.fst = ["v" ++ "_expanding_" ++ "mean"])
    ∧ augment_expanding examplePrims examplePrims exampleQPrim false c2rows ["v"]
        (.pstr "bogus") (some 1) "pandas" 0 =
      .error ⟨"ValueError", "Invalid function name: " ++ "bogus"⟩
    ∧ augment_expanding examplePrims examplePrims exampleQPrim false c2rows ["v"]
        (.pstr "bogus") (some 1) "polars" 0 =
      .error ⟨"ValueError", "bogus" ++ " is not a recognized function for Polars."⟩ := by
  refine ⟨?_, ?_, ?_, ?_⟩
  · exact (C7_named_statistics examplePrims exampleQPrim false c2rows "v" (some 1) 0
      "mean").1 (by decide)
  · exact (C7_named_statistics examplePrims exampleQPrim false c2rows "v" (some 1) 0
      "mean").2.2.1 (by decide)
  · exact (C7_named_statistics examplePrims exampleQPrim false c2rows "v" (some 1) 0
      "bogus").2.1 (by decide) (by decide)
  · exact (C7_named_statistics examplePrims exampleQPrim false c2rows "v" (some 1) 0
      "bogus").2.2.2 (by decide)

/-- C7 counterexample: `kurt` is one of the eleven named statistics, so the
claim says the polars backend computes it and appends the column; the code
rejects it as unrecognized (polars spells the primitive `kurtosis`), so the
whole invocation fails. -/
theorem C7_cex_polars_kurt :
    augment_expanding examplePrims examplePrims exampleQPrim false c2rows ["v"]
        (.pstr "kurt") (some 1) "polars" 0 =
      .error ⟨"ValueError", "kurt is not a recognized function for Polars."⟩
    ∧ "kurt" ∈ elevenStats := by
  exact ⟨by rfl, by decide⟩

/-- C8 (amended): the polars backend validates tuple descriptors — a tuple
of length other than 2 fails with the `ValueError` naming the length, and a
2-tuple whose first element is not a string fails with the `TypeError`
naming the type.  The pandas backend and `augment_expanding_apply` reject a
descriptor that is neither a string nor a tuple with `TypeError` naming the
type, and fail the whole invocation; but the pandas backend does not
validate tuple contents — see the counterexample. -/
theorem C8_descriptor_shapes (prims : String → List Val → Option Val)
    (qprim : Val → List Val → Option Val) (grouped : Bool) (rows : List Row)
    (col : String) (mp : Option Nat) (mp2 n : Nat) (q : Val)
    (xs : List PyObj) (a b : PyObj) (kvs : List (String × Val)) :
    (xs.length ≠ 2 → polarsProcessDesc n mp2 col (.ptuple xs) =
        (0, .error ⟨"ValueError",
          "Expected the tuple passed to the `window_func` to be of length 2, but received tuple of length "
            ++ toString xs.length ++ "."⟩))
    ∧ ((∀ s, a ≠ .pstr s) → polarsProcessDesc n mp2 col (.ptuple [a, b]) =
        (0, .error ⟨"TypeError",
          "Expected the first element of the tuple passed to `window_func` to be of type str, but received "
            ++ pyTypeName a ++ "."⟩))
    ∧ pandasResolveDesc prims qprim q mp2 col (.pdict kvs) =
        .error ⟨"TypeError", "Invalid function type: <class dict>"⟩
    ∧ applyResolveDesc mp2 (.pdict kvs) =
        .error ⟨"TypeError", "Expected tuple, but got invalid function type: <class dict>"⟩
    ∧ augment_expanding prims prims qprim grouped rows [col] (.plist [.pnum 3]) mp
        "pandas" q = .error ⟨"TypeError", "Invalid function type: <class int>"⟩ := by
  refine ⟨?_, ?_, rfl, rfl, ?_⟩
  · intro h
    rcases xs with _ | ⟨x, _ | ⟨y, _ | ⟨z, t⟩⟩⟩
    · rfl
    · rfl
    · exact absurd rfl h
    · rfl
  · intro h
    cases a with
    | pstr s => exact absurd rfl (h s)
    | pnum q2 => rfl
    | pdict kv => rfl
    | ptuple t => rfl
    | plist t => rfl
    | pcall pr f1 f2 => rfl
  · have hres : pandasResolveAll prims qprim q (mp.getD 1) [col] [.pnum 3] =
        .error ⟨"TypeError", "Invalid function type: <class int>"⟩ := by
      rw [pandasResolveAll_single]
      rfl
    simp only [augment_expanding, normalizeWindowFunc, if_true, if_false]
    exact pandasPipeline_error _ _ _ _ _ _ _ _ _ hres

/-- C8 witness: the theorem applied at a length-3 tuple, a 2-tuple headed
by a number on the polars backend, and a number descriptor on the pandas
backend. -/
theorem C8_descriptor_shapes_witness :
    polarsProcessDesc 4 1 "v" (.ptuple [.pstr "a", .pstr "b", .pstr "c"]) =
      (0, .error ⟨"ValueError",
        "Expected the tuple passed to the `window_func` to be of length 2, but received tuple of length "
          ++ toString ([PyObj.pstr "a", PyObj.pstr "b", PyObj.pstr "c"]).length ++ "."⟩)
    ∧ polarsProcessDesc 4 1 "v" (.ptuple [.pnum 7, .pnum 8]) =
      (0, .error ⟨"TypeError",
        "Expected the first element of the tuple passed to `window_func` to be of type str, but received "
          ++ pyTypeName (.pnum 7) ++ "."⟩)
    ∧ augment_expanding examplePrims examplePrims exampleQPrim false c2rows ["v"]
        (.plist [.pnum 3]) (some 1) "pandas" 0 =
      .error ⟨"TypeError", "Invalid function type: <class int>"⟩ := by
  have h := C8_descriptor_shapes examplePrims exampleQPrim false c2rows "v" (some 1)
    1 4 0 [.pstr "a", .pstr "b", .pstr "c"] (.pnum 7) (.pnum 8) []
  exact ⟨h.1 (by decide), h.2.1 (fun s hc => PyObj.noConfusion hc), h.2.2.2.2⟩

/-- The 2-tuple descriptor with a numeric first element used in the C8
counterexample. -/
def c8desc : PyObj :=
  .ptuple [.pnum 3,
    .pcall (.raises "TypeError" "missing 1 required positional argument") statSum
      (fun _ => none)]

/-- C8 counterexample: the claim says a 2-tuple whose first element is not
a string fails on both backends; the pandas backend accepts it, formats the
number into the column name `v_expanding_3`, and returns a full result. -/
theorem C8_cex_pandas_bad_tuple :
    exOk (augment_expanding examplePrims examplePrims exampleQPrim false c1rows ["v"]
      (.plist [c8desc]) (some 1) "pandas" 0) = true
    ∧ ((augment_expanding examplePrims examplePrims exampleQPrim false c1rows ["v"]
        (.plist [c8desc]) (some 1) "pandas" 0).toOption.getD []).map (fun p => p.2) =
      [[("v_expanding_3", some 10)], [("v_expanding_3", some 30)],
       [("v_expanding_3", some 60)]] := by
  exact ⟨by rfl, by rfl⟩

end Expanding


namespace Expanding

/-- C9: for every invocation of `augment_expanding` (either backend) and of
`augment_expanding_apply`, the caller's original frame is unchanged
afterwards: the entry points copy the data first (lines 205, 354, 414) and
every subsequent allocation and in-place column write targets fresh frames,
so the heap cell holding the caller's frame reads back exactly as before. -/
theorem C9_no_mutation (prims_pd prims_pl : String → List Val → Option Val)
    (qprim : Val → List Val → Option Val) (h : Heap) (dataId : Nat)
    (grouped : Bool) (vcols : List String) (wf : PyObj) (mp : Option Nat)
    (engine : String) (q : Val) (hid : dataId < h.length) :
    (augment_expanding_heap prims_pd prims_pl qprim h dataId grouped vcols wf mp
        engine q).1.getD dataId [] = h.getD dataId []
    ∧ (augment_expanding_apply_heap h dataId grouped wf mp).1.getD dataId []
        = h.getD dataId [] := by
  constructor
  · unfold augment_expanding_heap
    cases hres : augment_expanding prims_pd prims_pl qprim grouped
        ((h.getD dataId []).map Prod.fst) vcols wf mp engine q with
    | error e =>
      simp only [hres]
      exact getD_heapAlloc h _ dataId hid
    | ok out =>
      simp only [hres]
      have h1 : dataId < (heapAlloc h (h.getD dataId [])).1.length := by
        rw [length_heapAlloc]
        omega
      exact (getD_after_two_awg _ _ _ dataId h1).trans
        (getD_heapAlloc h _ dataId hid)
  · unfold augment_expanding_apply_heap
    cases hres : augment_expanding_apply grouped
        ((h.getD dataId []).map Prod.fst) wf mp with
    | error e =>
      simp only [hres]
      exact getD_heapAlloc h _ dataId hid
    | ok out =>
      simp only [hres]
      have h1 : dataId < (heapAlloc h (h.getD dataId [])).1.length := by
        rw [length_heapAlloc]
        omega
      exact (getD_after_two_awg _ _ _ dataId h1).trans
        (getD_heapAlloc h _ dataId hid)

/-- C9 witness: a concrete one-frame heap is unchanged by a pandas
invocation and an apply invocation. -/
theorem C9_no_mutation_witness :
    (augment_expanding_heap examplePrims examplePrims exampleQPrim
        [c1rows.map (fun r => (r, []))] 0 true ["v"] (.pstr "mean") (some 1)
        "pandas" 0).1.getD 0 [] = [c1rows.map (fun r => (r, []))].getD 0 []
    ∧ (augment_expanding_apply_heap [c1rows.map (fun r => (r, []))] 0 true c1wf2
        (some 1)).1.getD 0 [] = [c1rows.map (fun r => (r, []))].getD 0 [] := by
  constructor
  · exact (C9_no_mutation examplePrims examplePrims exampleQPrim
      [c1rows.map (fun r => (r, []))] 0 true ["v"] (.pstr "mean") (some 1)
      "pandas" 0 (by decide)).1
  · exact (C9_no_mutation examplePrims examplePrims exampleQPrim
      [c1rows.map (fun r => (r, []))] 0 true ["v"] c1wf2 (some 1)
      "pandas" 0 (by decide)).2

end Expanding
